import Mathlib

/-
Verification of the CourtTableAI multi-agent debate system (Go).

Shallow embedding of:
  * pkg/models/agent.go         (Agent, Discussion, DiscussionLog, AgentResponse)
  * pkg/orchestrator/agent_client.go  (provider adapter: detectProviderType,
    CallAgent dispatch, getChatEndpoints, the callOpenAI endpoint loop)
  * pkg/orchestrator/debate_engine.go (executeDebate round loop, callModerator,
    generateSummary, getAgents/RunDebate validation, StopDiscussion,
    RetryFailedAgent)

Go strings are modelled as Lean `String` (lists of characters); Go byte-index
truncation `s[:n]` is modelled as taking the first n characters.  Network and
database effects are modelled by explicit oracles / stores passed as arguments.
All string primitives used by the embedding (substring search, whitespace
trimming, splitting on a newline) are defined here over `List Char` so that
every definition evaluates by kernel reduction.
-/

namespace CourtTableAI

/-- Character-list analogue of "the second list is an initial segment of the
first": `leadsWith pat l` is true when `pat` occurs at the head of `l`. -/
def leadsWith : List Char → List Char → Bool
  | [], _ => true
  | _ :: _, [] => false
  | a :: as, b :: bs => a == b && leadsWith as bs

/-- `containsSub l pat` is true when `pat` occurs contiguously anywhere in `l`;
model of Go `strings.Contains`. -/
def containsSub : List Char → List Char → Bool
  | l, pat =>
    match l with
    | [] => pat.isEmpty
    | _ :: t => leadsWith pat l || containsSub t pat

/-- Model of Go `strings.Contains(s, sub)`. -/
def containsStr (s sub : String) : Bool :=
  containsSub s.data sub.data

/-- Model of Go `strings.HasSuffix(s, sfx)`. -/
def endsWithStr (s sfx : String) : Bool :=
  leadsWith sfx.data.reverse s.data.reverse

/-- Model of Go `strings.TrimSpace` (whitespace stripped from both ends). -/
def trimSpaceStr (s : String) : String :=
  ⟨((s.data.dropWhile Char.isWhitespace).reverse.dropWhile Char.isWhitespace).reverse⟩

/-- Model of Go `strings.TrimSuffix(s, sfx)`: removes one trailing copy of
`sfx` when present. -/
def trimSuffixStr (s sfx : String) : String :=
  if endsWithStr s sfx then ⟨s.data.take (s.length - sfx.length)⟩ else s

/-- Split a character list at every occurrence of the separator character;
model of Go `strings.Split(s, sep)` for a one-character separator. -/
def splitOnChar (c : Char) : List Char → List (List Char)
  | [] => [[]]
  | x :: xs =>
    let r := splitOnChar c xs
    if x == c then [] :: r
    else
      match r with
      | [] => [[x]]
      | h :: t => (x :: h) :: t

/-- Model of Go `strings.Split(context, "\n")`. -/
def splitNewlines (s : String) : List String :=
  (splitOnChar '\n' s.data).map (fun l => ⟨l⟩)

/-- pkg/models/agent.go: `Agent` (timestamps omitted, they carry no logic). -/
structure Agent where
  id : Nat
  name : String
  providerType : String
  providerURL : String
  apiToken : String
  modelName : String
  timeoutSeconds : Int
deriving DecidableEq

/-- pkg/models/agent.go: `Discussion` (timestamps omitted). -/
structure Discussion where
  id : Nat
  topic : String
  finalSummary : String
  status : String
  agentIDs : List Nat
  moderatorID : Option Nat
  maxRounds : Int
  language : String
  maxCharLimit : Nat
deriving DecidableEq

/-- pkg/models/agent.go: `DiscussionLog` (timestamps and row id omitted). -/
structure LogEntry where
  discussionID : Nat
  agentID : Nat
  content : String
  status : String
  isModerator : Bool
deriving DecidableEq

/-- Outcome of one `CallAgent` invocation, as observed by the debate engine:
`err` models a non-nil Go error (including a deadline exceeded / timeout),
`failure` models `err == nil && !response.Success` with the response's
`ErrorMessage`, and `success` models `err == nil && response.Success` with the
response's `Content`. -/
inductive CallOutcome where
  | err (msg : String)
  | failure (msg : String)
  | success (content : String)
deriving DecidableEq

/-- `isSuccessOutcome o` is true exactly when the call produced a usable
response (`err == nil && response.Success` in the Go code). -/
def isSuccessOutcome : CallOutcome → Bool
  | .success _ => true
  | _ => false

/-- agent_client.go `detectProviderType`: provider kind from URL substrings. -/
def detectProviderType (url : String) : String :=
  if containsStr url "ollama" || containsStr url "localhost:11434" then "ollama"
  else if containsStr url "openai.com" then "openai"
  else if containsStr url "anthropic.com" then "anthropic"
  else if containsStr url "googleapis.com" then "google"
  else "custom"

/-- The provider kind `CallAgent` resolves for an agent.  The Go code computes
`providerType := detectProviderType(agent.ProviderURL)` — the agent's
configured `ProviderType` field is not read by `CallAgent`. -/
def callAgentKind (agent : Agent) : String :=
  detectProviderType agent.providerURL

/-- The five provider backends `CallAgent` can dispatch to. -/
inductive Backend where
  | ollama
  | openai
  | anthropic
  | google
  | custom
deriving DecidableEq

/-- The `switch providerType` dispatch inside `CallAgent`; unknown kinds fall
through to the custom backend. -/
def dispatchBackend (kind : String) : Backend :=
  if kind = "ollama" then .ollama
  else if kind = "openai" then .openai
  else if kind = "anthropic" then .anthropic
  else if kind = "google" then .google
  else if kind = "custom" then .custom
  else .custom

/-- Which backend `CallAgent` invokes for a given agent. -/
def callAgentBackend (agent : Agent) : Backend :=
  dispatchBackend (callAgentKind agent)

/-- agent_client.go `getChatEndpoints`: prioritized candidate endpoints for
the OpenAI-compatible chat call. -/
def getChatEndpoints (agentURL : String) : List String :=
  let baseURL := trimSuffixStr (trimSpaceStr agentURL) "/"
  if containsStr baseURL "/chat/completions" || containsStr baseURL "/generate" then
    [baseURL]
  else if endsWithStr baseURL "/v1" then
    [baseURL ++ "/chat/completions"]
  else
    [baseURL ++ "/v1/chat/completions", baseURL ++ "/chat/completions", baseURL]

/-- What the network returns for one POST to one endpoint: a transport error,
or a reply with an HTTP status, whether the body parsed as an OpenAI response,
and the list of choice contents. -/
inductive Attempt where
  | netErr (msg : String)
  | reply (status : Nat) (parseOk : Bool) (choices : List String)
deriving DecidableEq

/-- One iteration of the `callOpenAI` endpoint loop: the attempt yields a
content string exactly when the status is 200, the body unmarshals, and the
choices list is non-empty (first choice content is used). -/
def tryEndpoint : Attempt → Option String
  | .netErr _ => none
  | .reply status parseOk choices =>
    if status ≠ 200 then none
    else if !parseOk then none
    else
      match choices with
      | [] => none
      | c :: _ => some c

/-- pkg/models/agent.go `AgentResponse`, restricted to the fields the
engine reads (response time omitted). -/
structure AgentResponseM where
  content : String
  success : Bool
  errorMessage : String
deriving DecidableEq

/-- The error recorded into `lastErr` when an attempt does not succeed. -/
def attemptErrMsg (a : Attempt) : String :=
  match a with
  | .netErr msg => msg
  | .reply status parseOk choices =>
    if status ≠ 200 then "API returned status " ++ toString status
    else if !parseOk then "unmarshal error"
    else
      match choices with
      | [] => "no choices in response"
      | _ :: _ => ""

/-- agent_client.go `callOpenAI` endpoint loop: try each candidate endpoint in
order; return the first successful parse, else a failure response built from
the last error. -/
def callOpenAIGo (env : String → Attempt) : List String → Option String → AgentResponseM
  | [], lastErr =>
    { content := "", success := false,
      errorMessage := "Failed to call OpenAI-compatible API: " ++ lastErr.getD "<nil>" }
  | e :: rest, _lastErr =>
    match tryEndpoint (env e) with
    | some c => { content := c, success := true, errorMessage := "" }
    | none => callOpenAIGo env rest (some (attemptErrMsg (env e)))

/-- agent_client.go `callOpenAI`, from endpoint resolution to the loop. -/
def callOpenAI (env : String → Attempt) (agentURL : String) : AgentResponseM :=
  callOpenAIGo env (getChatEndpoints agentURL) none

/-- Specification-side helper: first endpoint in the list whose attempt
succeeds, together with its content. -/
def firstSuccess (env : String → Attempt) : List String → Option (String × String)
  | [] => none
  | e :: rest =>
    match tryEndpoint (env e) with
    | some c => some (e, c)
    | none => firstSuccess env rest

/-- debate_engine.go: hard truncation of a successful participant response to
the discussion's `MaxCharLimit` (`content = content[:MaxCharLimit]`). -/
def enforceCharLimit (limit : Nat) (content : String) : String :=
  if content.length > limit then ⟨content.data.take limit⟩ else content

/-- debate_engine.go: the `DiscussionLog` entry written for one participant
turn ("Error: ..." for a failed call, truncated content for a success). -/
def participantEntry (disc : Discussion) (agent : Agent) (out : CallOutcome) : LogEntry :=
  match out with
  | .err msg => ⟨disc.id, agent.id, "Error: " ++ msg, "error", false⟩
  | .failure msg => ⟨disc.id, agent.id, "Error: " ++ msg, "error", false⟩
  | .success c =>
    ⟨disc.id, agent.id, enforceCharLimit disc.maxCharLimit c, "success", false⟩

/-- debate_engine.go `getModeratorRole`. -/
def getModeratorRole (t : String) : String :=
  if t = "opening" then "Opening Remarks"
  else if t = "interim" then "Interim Moderation"
  else if t = "round_summary" then "Round Summary"
  else if t = "closing" then "Closing Remarks"
  else "Moderation"

/-- debate_engine.go `callModerator`: the `DiscussionLog` entry written for a
moderator interaction.  Note the successful content is stored without any
character-limit truncation. -/
def moderatorEntry (disc : Discussion) (moderator : Agent) (mtype : String)
    (out : CallOutcome) : LogEntry :=
  match out with
  | .err msg => ⟨disc.id, moderator.id, "Moderator Error: " ++ msg, "error", true⟩
  | .failure msg => ⟨disc.id, moderator.id, "Moderator Error: " ++ msg, "error", true⟩
  | .success c =>
    ⟨disc.id, moderator.id,
      "[Moderator - " ++ getModeratorRole mtype ++ "]\n" ++ c, "success", true⟩

/-- debate_engine.go `executeDebate`: appending a successful response to the
`debateContext` string builder. -/
def appendDebateContext (ctx : String) (round : Nat) (agent : Agent)
    (content : String) : String :=
  let entry := "Round " ++ toString round ++ " - Agent " ++ agent.name ++
    " (" ++ toString agent.id ++ "):" ++ "\n" ++ content
  if ctx.length > 0 then ctx ++ "\n\n" ++ entry else entry

/-- The points at which `executeDebate` consults the moderator. -/
inductive ModSlot where
  | opening
  | interim (round : Nat) (idx : Nat)
  | roundSummary (round : Nat)
  | closing

/-- One participant turn as observed from outside: which round and agent, the
prior-context string that was passed to `CallAgent`, and the log entry the
turn produced. -/
structure TurnRecord where
  round : Nat
  idx : Nat
  agent : Agent
  ctxPassed : String
  entry : LogEntry
deriving DecidableEq

/-- The mutable state threaded through `executeDebate`: the `debateContext`
builder, the saved discussion logs (in insertion order), the trace of
participant turns, and the per-round `roundActive` flag. -/
structure EngineState where
  ctx : String
  logs : List LogEntry
  recs : List TurnRecord
  roundActive : Bool
deriving DecidableEq

/-- `callModerator` as a state transition: it appends the moderator log entry
and touches neither `debateContext` nor `roundActive`. -/
def moderatorStep (disc : Discussion) (moderator : Agent) (mtype : String)
    (out : CallOutcome) (st : EngineState) : EngineState :=
  { st with logs := st.logs ++ [moderatorEntry disc moderator mtype out] }

/-- One participant turn of the round loop in `executeDebate`: call the agent
with the current `debateContext`, log the outcome, and on success append the
truncated content to the context and mark the round active. -/
def participantTurn (disc : Discussion) (pOut : Nat → Nat → CallOutcome)
    (round idx : Nat) (agent : Agent) (st : EngineState) : EngineState :=
  let out := pOut round idx
  let entry := participantEntry disc agent out
  let trec : TurnRecord := ⟨round, idx, agent, st.ctx, entry⟩
  match out with
  | .success c =>
    { ctx := appendDebateContext st.ctx round agent (enforceCharLimit disc.maxCharLimit c),
      logs := st.logs ++ [entry],
      recs := st.recs ++ [trec],
      roundActive := true }
  | _ => { st with logs := st.logs ++ [entry], recs := st.recs ++ [trec] }

/-- `if moderator != nil && i < len(agents)-1` interim commentary between two
participant responses. -/
def interimStep (disc : Discussion) (moderator : Option Agent)
    (mOut : ModSlot → CallOutcome) (nAgents round idx : Nat)
    (st : EngineState) : EngineState :=
  match moderator with
  | some m =>
    if idx < nAgents - 1 then
      moderatorStep disc m "interim" (mOut (.interim round idx)) st
    else st
  | none => st

/-- `if moderator != nil` guard around a moderator interaction (used for the
opening, per-round summary and closing calls). -/
def optModeratorStep (disc : Discussion) (moderator : Option Agent)
    (mtype : String) (out : CallOutcome) (st : EngineState) : EngineState :=
  match moderator with
  | some m => moderatorStep disc m mtype out st
  | none => st

/-- The inner `for i, agent := range agents` loop of one round, including the
interim moderator commentary between participant responses. -/
def runAgents (disc : Discussion) (moderator : Option Agent)
    (pOut : Nat → Nat → CallOutcome) (mOut : ModSlot → CallOutcome)
    (nAgents round : Nat) : Nat → List Agent → EngineState → EngineState
  | _, [], st => st
  | idx, agent :: rest, st =>
    runAgents disc moderator pOut mOut nAgents round (idx + 1) rest
      (interimStep disc moderator mOut nAgents round idx
        (participantTurn disc pOut round idx agent st))

/-- One full round: reset `roundActive`, run every participant in sequence,
then the moderator's round summary. -/
def runRound (disc : Discussion) (moderator : Option Agent)
    (pOut : Nat → Nat → CallOutcome) (mOut : ModSlot → CallOutcome)
    (agents : List Agent) (round : Nat) (st : EngineState) : EngineState :=
  optModeratorStep disc moderator "round_summary" (mOut (.roundSummary round))
    (runAgents disc moderator pOut mOut agents.length round 0 agents
      { st with roundActive := false })

/-- The `for round := 1; round <= maxRounds` loop: run rounds while at least
one participant succeeded; a fully-failed round ends the loop early. -/
def execRounds (disc : Discussion) (moderator : Option Agent)
    (pOut : Nat → Nat → CallOutcome) (mOut : ModSlot → CallOutcome)
    (agents : List Agent) : Nat → Nat → EngineState → EngineState
  | _, 0, st => st
  | round, n + 1, st =>
    let st1 := runRound disc moderator pOut mOut agents round st
    if st1.roundActive then execRounds disc moderator pOut mOut agents (round + 1) n st1
    else st1

/-- debate_engine.go: the effective round count (`maxRounds = 3` fallback when
the configured value is unset or non-positive). -/
def effMaxRounds (m : Int) : Nat :=
  if m ≤ 0 then 3 else m.toNat

/-- debate_engine.go `generateSummary`: deterministic final summary from topic
and accumulated debate context. -/
def generateSummary (topic context : String) : String :=
  if context = "" then "No responses were generated during this debate."
  else
    let summary := "Debate Summary for: " ++ topic ++ "\n\n" ++
      "The debate involved multiple AI agents discussing this topic. " ++
      "Each agent provided their perspective and responded to others' arguments. " ++
      "For detailed discussion, please review the individual agent responses.\n\n"
    let lines := splitNewlines context
    if lines.length > 5 then
      let summary := summary ++ "Key points discussed:\n" ++
        (lines.take 5).foldl
          (fun acc l =>
            if trimSpaceStr l ≠ "" then acc ++ "- " ++ trimSpaceStr l ++ "\n" else acc)
          ""
      if lines.length > 5 then summary ++ "... (see full discussion for more details)"
      else summary
    else summary

/-- Result of a whole debate run: final engine state and final summary. -/
structure DebateResult where
  state : EngineState
  finalSummary : String
deriving DecidableEq

/-- debate_engine.go `executeDebate`: moderator opening, the round loop, the
moderator closing, and the final summary over the accumulated context.
Outcomes of agent calls are supplied by the oracles `pOut` (participant turn
by round and index) and `mOut` (moderator slot). -/
def executeDebate (disc : Discussion) (agents : List Agent)
    (moderator : Option Agent) (pOut : Nat → Nat → CallOutcome)
    (mOut : ModSlot → CallOutcome) : DebateResult :=
  let st0 : EngineState := ⟨"", [], [], false⟩
  let st1 := optModeratorStep disc moderator "opening" (mOut .opening) st0
  let st2 := execRounds disc moderator pOut mOut agents 1 (effMaxRounds disc.maxRounds) st1
  let st3 := optModeratorStep disc moderator "closing" (mOut .closing) st2
  ⟨st3, generateSummary disc.topic st3.ctx⟩

/-- debate_engine.go `RetryFailedAgent`: the context rebuilt for the retried
call — previous successful log contents joined with blank lines. -/
def retryContext (logs : List LogEntry) : String :=
  logs.foldl
    (fun acc l =>
      if l.status = "success" then
        if acc.length > 0 then acc ++ "\n\n" ++ l.content else acc ++ l.content
      else acc)
    ""

/-- debate_engine.go `RetryFailedAgent`: the new log entry for the retried
call.  `IsModerator` is left at its zero value and a successful response is
stored without truncation. -/
def retryEntry (discussionID agentID : Nat) (out : CallOutcome) : LogEntry :=
  match out with
  | .err msg => ⟨discussionID, agentID, "Retry failed: " ++ msg, "error", false⟩
  | .failure msg => ⟨discussionID, agentID, "Retry failed: " ++ msg, "error", false⟩
  | .success c => ⟨discussionID, agentID, c, "success", false⟩

/-- debate_engine.go `RetryFailedAgent`: guards plus the produced log entry. -/
def retryFailedAgent (disc : Discussion) (agentStore : Nat → Option Agent)
    (agentID : Nat) (out : CallOutcome) : Except String LogEntry :=
  if disc.status ≠ "running" then .error "discussion is not running"
  else
    match agentStore agentID with
    | none => .error "failed to get agent"
    | some _ => .ok (retryEntry disc.id agentID out)

/-- Point update of a keyed discussion store, the effect of
`db.UpdateDiscussion`. -/
def updateStore (store : Nat → Option Discussion) (id : Nat) (d : Discussion) :
    Nat → Option Discussion :=
  fun i => if i = id then some d else store i

/-- debate_engine.go `StopDiscussion`: only a `running` discussion may be
stopped; on success its status becomes `completed` in the store. -/
def stopDiscussion (store : Nat → Option Discussion) (id : Nat) :
    Except String (Nat → Option Discussion) :=
  match store id with
  | none => .error "failed to get discussion"
  | some d =>
    if d.status ≠ "running" then .error "discussion is not running"
    else .ok (updateStore store id { d with status := "completed" })

/-- debate_engine.go `getAgents`.  The Go implementation resolves the ids
concurrently and its result order is nondeterministic; this model resolves
them sequentially — the error behaviour (failure exactly when some id does not
resolve) is the same. -/
def getAgents (agentStore : Nat → Option Agent) : List Nat → Except String (List Agent)
  | [] => .ok []
  | id :: rest =>
    match agentStore id with
    | none => .error "agent not found"
    | some a =>
      match getAgents agentStore rest with
      | .error e => .error e
      | .ok as => .ok (a :: as)

/-- debate_engine.go `RunDebate` up to the point the background goroutine is
spawned: validate participants, validate the optional moderator, then insert
the discussion record with status `running`.  Returns the (possibly updated)
discussion store together with the synchronous result. -/
def runDebate (agentStore : Nat → Option Agent) (topic : String)
    (agentIDs : List Nat) (moderatorID : Option Nat) (maxRounds : Int)
    (language : String) (maxCharLimit : Nat) (discs : List Discussion)
    (newID : Nat) : List Discussion × Except String Discussion :=
  let disc : Discussion :=
    ⟨newID, topic, "", "running", agentIDs, moderatorID, maxRounds, language, maxCharLimit⟩
  match getAgents agentStore agentIDs with
  | .error e => (discs, .error ("failed to verify agents: " ++ e))
  | .ok _ =>
    match moderatorID with
    | some mid =>
      match agentStore mid with
      | none => (discs, .error "failed to verify moderator")
      | some _ => (discs ++ [disc], .ok disc)
    | none => (discs ++ [disc], .ok disc)

/-- Specification-side: how one participant turn record extends the context —
a successful turn appends its stored content under its round/agent banner, a
failed turn leaves the context unchanged. -/
def ctxStep (c : String) (t : TurnRecord) : String :=
  if t.entry.status = "success" then appendDebateContext c t.round t.agent t.entry.content
  else c

/-- Specification-side: the context obtained by folding `ctxStep` over a list
of participant turn records. -/
def foldCtx (c : String) (l : List TurnRecord) : String :=
  l.foldl ctxStep c

/-- Specification-side: the trace property that each participant turn was
passed exactly the context accumulated from the successful participant turns
strictly before it (and from nothing else — in particular no moderator
output and nothing produced at or after the turn). -/
def RecsTrace : String → List TurnRecord → Prop
  | _, [] => True
  | c, t :: rest => t.ctxPassed = c ∧ RecsTrace (ctxStep c t) rest

/-- A log entry producible by the debate engine: either a participant-turn
entry or a moderator entry. -/
def EngineEntry (disc : Discussion) (e : LogEntry) : Prop :=
  (∃ agent out, e = participantEntry disc agent out) ∨
  (∃ m mtype out, e = moderatorEntry disc m mtype out)

/-- The engine-state invariant maintained by `executeDebate`: the context is
the `ctxStep` fold of the turn trace, the trace is faithful, and every saved
log entry came from a participant turn or a moderator interaction. -/
def EngineInv (disc : Discussion) (st : EngineState) : Prop :=
  st.ctx = foldCtx "" st.recs ∧ RecsTrace "" st.recs ∧
  ∀ e ∈ st.logs, EngineEntry disc e

/-- Specification-side restatement (amended C5) of the final-summary format:
fixed sentence for an empty transcript; otherwise the fixed header and
explanatory text, with the bullet list and truncation notice present exactly
when the transcript has more than five lines. -/
def summarySpecAmended (topic context : String) : String :=
  if context = "" then "No responses were generated during this debate."
  else
    let summary := "Debate Summary for: " ++ topic ++ "\n\n" ++
      "The debate involved multiple AI agents discussing this topic. " ++
      "Each agent provided their perspective and responded to others' arguments. " ++
      "For detailed discussion, please review the individual agent responses.\n\n"
    let lines := splitNewlines context
    if lines.length ≤ 5 then summary
    else
      (summary ++ "Key points discussed:\n" ++
        (lines.take 5).foldl
          (fun acc l =>
            if trimSpaceStr l ≠ "" then acc ++ "- " ++ trimSpaceStr l ++ "\n" else acc)
          "") ++ "... (see full discussion for more details)"

/-- C1 counterexample instance: configured kind `anthropic`, URL mentioning
`openai.com`. -/
def c1Agent : Agent :=
  ⟨1, "claude", "anthropic", "https://api.openai.com/v1", "", "claude-3", 30⟩

/-- C1 witness instance A: same URL as `c1WitB`, kind configured. -/
def c1WitA : Agent := ⟨2, "a", "anthropic", "https://api.example.com", "", "m", 30⟩

/-- C1 witness instance B: same URL as `c1WitA`, no kind configured. -/
def c1WitB : Agent := ⟨3, "b", "", "https://api.example.com", "", "m", 30⟩

/-- C4 instance: a custom base URL that is not already a complete endpoint. -/
def c4URL : String := "https://example.com"

/-- C4 instance: a network in which both candidate chat endpoints would
answer successfully, with distinguishable contents. -/
def c4Env : String → Attempt := fun e =>
  if e = "https://example.com/v1/chat/completions" then .reply 200 true ["A"]
  else if e = "https://example.com/chat/completions" then .reply 200 true ["B"]
  else .netErr "x"

/-- C2 counterexample instance: debate with one participant and a moderator. -/
def c2Disc : Discussion := ⟨1, "T", "", "running", [10], some 99, 1, "en", 100⟩

/-- C2 counterexample instance: the participant. -/
def c2Agent : Agent := ⟨10, "A", "", "http://x", "", "m", 30⟩

/-- C2 counterexample instance: the moderator. -/
def c2Mod : Agent := ⟨99, "M", "", "http://y", "", "m", 30⟩

/-- C2 counterexample instance: every participant call fails. -/
def c2POut : Nat → Nat → CallOutcome := fun _ _ => .err "down"

/-- C2 counterexample instance: every moderator call succeeds. -/
def c2MOut : ModSlot → CallOutcome := fun _ => .success "Welcome"

/-- C3 counterexample instance: debate with max-char limit 5 and a moderator. -/
def c3Disc : Discussion := ⟨1, "T", "", "running", [], some 99, 1, "en", 5⟩

/-- C3 counterexample instance: the moderator. -/
def c3Mod : Agent := ⟨99, "M", "", "http://y", "", "m", 30⟩

/-- C3 counterexample instance: participant calls (no participants run). -/
def c3POut : Nat → Nat → CallOutcome := fun _ _ => .err "down"

/-- C3 counterexample instance: the moderator responds with 10 characters,
above the limit of 5. -/
def c3MOut : ModSlot → CallOutcome := fun _ => .success "HelloWorld"

/-- C3 witness instance: debate with limit 3 and no moderator. -/
def c3wDisc : Discussion := ⟨1, "T", "", "running", [10], none, 1, "en", 3⟩

/-- C3 witness instance: the participant. -/
def c3wAgent : Agent := ⟨10, "A", "", "http://x", "", "m", 30⟩

/-- C3 witness instance: the participant responds with 5 characters. -/
def c3wPOut : Nat → Nat → CallOutcome := fun _ _ => .success "hello"

/-- C3 witness instance: moderator calls (no moderator runs). -/
def c3wMOut : ModSlot → CallOutcome := fun _ => .err "x"

/-- C6 witness instance: debate configured for 5 rounds. -/
def c6Disc : Discussion := ⟨1, "T", "", "running", [10], none, 5, "en", 100⟩

/-- C6 witness instance: the participant. -/
def c6Agent : Agent := ⟨10, "A", "", "http://x", "", "m", 30⟩

/-- C6 witness instance: every participant call fails. -/
def c6POut : Nat → Nat → CallOutcome := fun _ _ => .err "down"

/-- C6 witness instance: moderator calls (no moderator runs). -/
def c6MOut : ModSlot → CallOutcome := fun _ => .err "x"

/-- C8 witness instance: a running discussion. -/
def c8Disc : Discussion := ⟨5, "T", "", "running", [], none, 1, "en", 10⟩

/-- C8 witness instance: a store holding only that discussion. -/
def c8Store : Nat → Option Discussion := fun i => if i = 5 then some c8Disc else none

/-- C9 witness instance: the one registered agent. -/
def c9Agent : Agent := ⟨1, "A", "", "http://x", "", "m", 30⟩

/-- C9 witness instance: a store resolving only agent id 1. -/
def c9Store : Nat → Option Agent := fun i => if i = 1 then some c9Agent else none

/-- C1 (counterexample): an agent whose configured provider kind is
`anthropic` (hence non-empty) but whose URL mentions `openai.com` is resolved
to kind `openai` by `CallAgent` — the explicitly configured kind is silently
overridden by URL detection, contradicting the claim. -/
theorem callAgent_configured_kind_ignored_cex :
    c1Agent.providerType = "anthropic" ∧
    c1Agent.providerType ≠ "" ∧
    callAgentKind c1Agent = "openai" ∧
    callAgentKind c1Agent ≠ c1Agent.providerType ∧
    callAgentBackend c1Agent = Backend.openai := by
  refine ⟨rfl, by decide, by decide, by decide, by decide⟩

/-- C1 (amended): the provider kind and backend `CallAgent` resolves depend
only on the agent's provider URL; the configured provider-kind field is never
consulted, so two agents with the same URL resolve identically whatever their
configured kinds. -/
theorem callAgent_kind_depends_only_on_url (a b : Agent)
    (h : a.providerURL = b.providerURL) :
    callAgentKind a = callAgentKind b ∧ callAgentBackend a = callAgentBackend b := by
  unfold callAgentBackend callAgentKind
  rw [h]
  exact ⟨rfl, rfl⟩

/-- C1 witness: two concrete agents sharing a URL, one with configured kind
`anthropic` and one with none, resolve to the same kind and backend. -/
theorem callAgent_kind_depends_only_on_url_witness :
    c1WitA.providerURL = c1WitB.providerURL ∧
    (callAgentKind c1WitA = callAgentKind c1WitB ∧
      callAgentBackend c1WitA = callAgentBackend c1WitB) :=
  ⟨rfl, callAgent_kind_depends_only_on_url c1WitA c1WitB rfl⟩

/-- The `callOpenAI` endpoint loop returns the first candidate that parses
successfully. -/
theorem callOpenAIGo_some (env : String → Attempt) :
    ∀ (l : List String) (le : Option String) (e c : String),
      firstSuccess env l = some (e, c) →
      callOpenAIGo env l le = ⟨c, true, ""⟩ := by
  intro l
  induction l with
  | nil => intro le e c h; simp [firstSuccess] at h
  | cons x rest ih =>
    intro le e c h
    unfold firstSuccess at h
    unfold callOpenAIGo
    cases ht : tryEndpoint (env x) with
    | some c0 =>
      rw [ht] at h
      simp at h
      obtain ⟨h1, h2⟩ := h
      subst h2
      rfl
    | none =>
      rw [ht] at h
      simp at h
      exact ih _ e c h

/-- If no candidate endpoint parses successfully, the `callOpenAI` loop ends
with a failure response. -/
theorem callOpenAIGo_none (env : String → Attempt) :
    ∀ (l : List String) (le : Option String),
      firstSuccess env l = none →
      (callOpenAIGo env l le).success = false := by
  intro l
  induction l with
  | nil => intro le _; rfl
  | cons x rest ih =>
    intro le h
    unfold firstSuccess at h
    unfold callOpenAIGo
    cases ht : tryEndpoint (env x) with
    | some c0 => rw [ht] at h; simp at h
    | none => rw [ht] at h; simp at h; exact ih _ h

/-- C4 (counterexample): for the custom base URL `https://example.com`, the
code tries `/v1/chat/completions` first, not `/chat/completions`; with a
network where both candidates would succeed (contents "A" and "B"
respectively), the adapter returns "A" from `/v1/chat/completions`, whereas
the claimed priority order would return "B". -/
theorem chat_endpoints_priority_order_cex :
    getChatEndpoints c4URL =
      ["https://example.com/v1/chat/completions", "https://example.com/chat/completions",
        "https://example.com"] ∧
    getChatEndpoints c4URL ≠
      ["https://example.com/chat/completions", "https://example.com/v1/chat/completions",
        "https://example.com"] ∧
    tryEndpoint (c4Env "https://example.com/chat/completions") = some "B" ∧
    callOpenAI c4Env c4URL = ⟨"A", true, ""⟩ ∧
    callOpenAI c4Env c4URL ≠ ⟨"B", true, ""⟩ := by
  refine ⟨by decide, by decide, by decide, by decide, by decide⟩

/-- C4 (amended): for the generic/custom kind with a base URL that is not
already a complete endpoint (and does not end in `/v1`), the candidate
endpoints are, in priority order, base+`/v1/chat/completions`, then
base+`/chat/completions`, then the bare base URL; the loop stops at the first
candidate yielding a parseable HTTP-200 response with a non-empty choice list
and fails if none does. -/
theorem chat_endpoints_resolution_amended (url : String)
    (_hkind : detectProviderType url = "custom")
    (hfull : containsStr (trimSuffixStr (trimSpaceStr url) "/") "/chat/completions" = false)
    (hgen : containsStr (trimSuffixStr (trimSpaceStr url) "/") "/generate" = false)
    (hv1 : endsWithStr (trimSuffixStr (trimSpaceStr url) "/") "/v1" = false) :
    getChatEndpoints url =
      [trimSuffixStr (trimSpaceStr url) "/" ++ "/v1/chat/completions",
        trimSuffixStr (trimSpaceStr url) "/" ++ "/chat/completions",
        trimSuffixStr (trimSpaceStr url) "/"] ∧
    (∀ env e c, firstSuccess env (getChatEndpoints url) = some (e, c) →
      callOpenAI env url = ⟨c, true, ""⟩) ∧
    (∀ env, firstSuccess env (getChatEndpoints url) = none →
      (callOpenAI env url).success = false) := by
  refine ⟨?_, ?_, ?_⟩
  · simp [getChatEndpoints, hfull, hgen, hv1]
  · intro env e c h
    exact callOpenAIGo_some env (getChatEndpoints url) none e c h
  · intro env h
    exact callOpenAIGo_none env (getChatEndpoints url) none h

/-- C4 witness: the amended endpoint resolution at the concrete custom URL
`https://example.com`. -/
theorem chat_endpoints_resolution_amended_witness :
    detectProviderType c4URL = "custom" ∧
    containsStr (trimSuffixStr (trimSpaceStr c4URL) "/") "/chat/completions" = false ∧
    getChatEndpoints c4URL =
      [trimSuffixStr (trimSpaceStr c4URL) "/" ++ "/v1/chat/completions",
        trimSuffixStr (trimSpaceStr c4URL) "/" ++ "/chat/completions",
        trimSuffixStr (trimSpaceStr c4URL) "/"] :=
  ⟨by decide, by decide,
    (chat_endpoints_resolution_amended c4URL (by decide) (by decide) (by decide)
      (by decide)).1⟩

/-- C5 (counterexample): for the non-empty one-line transcript `hello` the
summary contains no bullet points at all — `- hello` does not occur in it —
refuting the claim that every non-empty transcript yields bulleted leading
lines. -/
theorem summary_no_bullets_for_short_transcript_cex :
    ("hello" : String) ≠ "" ∧
    trimSpaceStr "hello" ≠ "" ∧
    (splitNewlines "hello").length = 1 ∧
    containsStr (generateSummary "Tea" "hello") ("- " ++ trimSpaceStr "hello" ++ "\n") =
      false := by
  refine ⟨by decide, by decide, by decide, by decide⟩

/-- C5 (amended): `generateSummary` is a deterministic function equal to the
amended format — fixed sentence for an empty transcript, fixed header and
explanatory text otherwise, with the bullet list over the first five lines
and the truncation notice present exactly when the transcript has more than
five lines. -/
theorem generateSummary_eq_amended_spec (topic context : String) :
    generateSummary topic context = summarySpecAmended topic context := by
  unfold generateSummary summarySpecAmended
  by_cases hc : context = ""
  · simp [hc]
  · simp only [hc, if_neg, ite_false]
    by_cases h5 : (splitNewlines context).length > 5
    · rw [if_pos h5, if_pos h5, if_neg (Nat.not_le.mpr h5)]
    · rw [if_neg h5, if_pos (Nat.not_lt.mp h5)]

/-- A participant turn whose outcome is not a success leaves context and
round-activity untouched and appends one failed entry and one trace record. -/
theorem participantTurn_def_fail (disc : Discussion) (pOut : Nat → Nat → CallOutcome)
    (round idx : Nat) (agent : Agent) (st : EngineState)
    (hfail : isSuccessOutcome (pOut round idx) = false) :
    participantTurn disc pOut round idx agent st =
      { st with
        logs := st.logs ++ [participantEntry disc agent (pOut round idx)],
        recs := st.recs ++
          [⟨round, idx, agent, st.ctx, participantEntry disc agent (pOut round idx)⟩] } := by
  cases hout : pOut round idx with
  | err m => simp [participantTurn, hout]
  | failure m => simp [participantTurn, hout]
  | success c => rw [hout] at hfail; simp [isSuccessOutcome] at hfail

/-- A successful participant turn appends the truncated content to the
context, logs the entry, records the turn and marks the round active. -/
theorem participantTurn_def_success (disc : Discussion) (pOut : Nat → Nat → CallOutcome)
    (round idx : Nat) (agent : Agent) (st : EngineState) (c : String)
    (hout : pOut round idx = .success c) :
    participantTurn disc pOut round idx agent st =
      { ctx := appendDebateContext st.ctx round agent (enforceCharLimit disc.maxCharLimit c),
        logs := st.logs ++ [participantEntry disc agent (.success c)],
        recs := st.recs ++
          [⟨round, idx, agent, st.ctx, participantEntry disc agent (.success c)⟩],
        roundActive := true } := by
  simp [participantTurn, hout]

/-- Folding the context over a snoc trace is one `ctxStep` after the fold. -/
theorem foldCtx_append (c : String) (l : List TurnRecord) (t : TurnRecord) :
    foldCtx c (l ++ [t]) = ctxStep (foldCtx c l) t := by
  simp [foldCtx, List.foldl_append]

/-- The context fold over a cons trace. -/
theorem foldCtx_cons (c : String) (t : TurnRecord) (l : List TurnRecord) :
    foldCtx c (t :: l) = foldCtx (ctxStep c t) l := rfl

/-- Trace faithfulness for a snoc trace: the new record must have been passed
exactly the fold of the earlier trace. -/
theorem recsTrace_append (l : List TurnRecord) : ∀ (c : String) (t : TurnRecord),
    RecsTrace c (l ++ [t]) ↔ (RecsTrace c l ∧ t.ctxPassed = foldCtx c l) := by
  induction l with
  | nil => intro c t; simp [RecsTrace, foldCtx]
  | cons h l ih =>
    intro c t
    simp only [List.cons_append, RecsTrace, List.append_eq, ih, foldCtx_cons, and_assoc]

/-- `callModerator` preserves the engine invariant: it only appends a
moderator entry to the logs. -/
theorem moderatorStep_inv (disc : Discussion) (m : Agent) (mt : String)
    (out : CallOutcome) (st : EngineState) (h : EngineInv disc st) :
    EngineInv disc (moderatorStep disc m mt out st) := by
  obtain ⟨h1, h2, h3⟩ := h
  refine ⟨h1, h2, ?_⟩
  intro e he
  simp [moderatorStep] at he
  rcases he with he | he
  · exact h3 e he
  · subst he; exact Or.inr ⟨m, mt, out, rfl⟩

/-- A participant turn preserves the engine invariant. -/
theorem participantTurn_inv (disc : Discussion) (pOut : Nat → Nat → CallOutcome)
    (round idx : Nat) (agent : Agent) (st : EngineState) (h : EngineInv disc st) :
    EngineInv disc (participantTurn disc pOut round idx agent st) := by
  obtain ⟨h1, h2, h3⟩ := h
  by_cases hs : isSuccessOutcome (pOut round idx) = true
  · obtain ⟨c, hout⟩ : ∃ c, pOut round idx = .success c := by
      cases hout : pOut round idx <;> rw [hout] at hs <;> simp [isSuccessOutcome] at hs
      exact ⟨_, rfl⟩
    rw [participantTurn_def_success disc pOut round idx agent st c hout]
    refine ⟨?_, ?_, ?_⟩
    · rw [foldCtx_append, ← h1]
      simp [ctxStep, participantEntry]
    · rw [recsTrace_append]
      exact ⟨h2, by rw [← h1]⟩
    · intro e he
      simp at he
      rcases he with he | he
      · exact h3 e he
      · subst he; exact Or.inl ⟨agent, .success c, rfl⟩
  · rw [Bool.not_eq_true] at hs
    rw [participantTurn_def_fail disc pOut round idx agent st hs]
    have hstat : (participantEntry disc agent (pOut round idx)).status = "error" := by
      cases hout : pOut round idx <;> rw [hout] at hs <;>
        simp [isSuccessOutcome] at hs <;> rfl
    refine ⟨?_, ?_, ?_⟩
    · rw [foldCtx_append, ← h1]
      simp [ctxStep, hstat]
    · rw [recsTrace_append]
      exact ⟨h2, by rw [← h1]⟩
    · intro e he
      simp at he
      rcases he with he | he
      · exact h3 e he
      · subst he; exact Or.inl ⟨agent, pOut round idx, rfl⟩

/-- The optional interim moderator commentary preserves the invariant. -/
theorem interimStep_inv (disc : Discussion) (moderator : Option Agent)
    (mOut : ModSlot → CallOutcome) (nAgents round idx : Nat) (st : EngineState)
    (h : EngineInv disc st) :
    EngineInv disc (interimStep disc moderator mOut nAgents round idx st) := by
  cases moderator with
  | none => exact h
  | some m =>
    show EngineInv disc
      (if idx < nAgents - 1 then
        moderatorStep disc m "interim" (mOut (.interim round idx)) st
      else st)
    by_cases hidx : idx < nAgents - 1
    · rw [if_pos hidx]
      exact moderatorStep_inv disc m "interim" (mOut (.interim round idx)) st h
    · rw [if_neg hidx]
      exact h

/-- Any optional moderator interaction preserves the invariant. -/
theorem optModeratorStep_inv (disc : Discussion) (moderator : Option Agent)
    (mtype : String) (out : CallOutcome) (st : EngineState) (h : EngineInv disc st) :
    EngineInv disc (optModeratorStep disc moderator mtype out st) := by
  cases moderator with
  | none => exact h
  | some m => exact moderatorStep_inv disc m mtype out st h

/-- The per-round participant loop preserves the invariant. -/
theorem runAgents_inv (disc : Discussion) (moderator : Option Agent)
    (pOut : Nat → Nat → CallOutcome) (mOut : ModSlot → CallOutcome)
    (nAgents round : Nat) :
    ∀ (l : List Agent) (idx : Nat) (st : EngineState), EngineInv disc st →
      EngineInv disc (runAgents disc moderator pOut mOut nAgents round idx l st) := by
  intro l
  induction l with
  | nil => intro idx st h; exact h
  | cons a rest ih =>
    intro idx st h
    exact ih (idx + 1) _
      (interimStep_inv disc moderator mOut nAgents round idx _
        (participantTurn_inv disc pOut round idx a st h))

/-- A whole round preserves the invariant. -/
theorem runRound_inv (disc : Discussion) (moderator : Option Agent)
    (pOut : Nat → Nat → CallOutcome) (mOut : ModSlot → CallOutcome)
    (agents : List Agent) (round : Nat) (st : EngineState) (h : EngineInv disc st) :
    EngineInv disc (runRound disc moderator pOut mOut agents round st) := by
  unfold runRound
  exact optModeratorStep_inv disc moderator _ _ _
    (runAgents_inv disc moderator pOut mOut agents.length round agents 0
      { st with roundActive := false } h)

/-- The round loop preserves the invariant. -/
theorem execRounds_inv (disc : Discussion) (moderator : Option Agent)
    (pOut : Nat → Nat → CallOutcome) (mOut : ModSlot → CallOutcome)
    (agents : List Agent) :
    ∀ (n round : Nat) (st : EngineState), EngineInv disc st →
      EngineInv disc (execRounds disc moderator pOut mOut agents round n st) := by
  intro n
  induction n with
  | zero => intro round st h; exact h
  | succ m ih =>
    intro round st h
    simp only [execRounds]
    split
    · exact ih _ _ (runRound_inv disc moderator pOut mOut agents round st h)
    · exact runRound_inv disc moderator pOut mOut agents round st h

/-- The final state of every debate run satisfies the engine invariant. -/
theorem executeDebate_inv (disc : Discussion) (agents : List Agent)
    (moderator : Option Agent) (pOut : Nat → Nat → CallOutcome)
    (mOut : ModSlot → CallOutcome) :
    EngineInv disc (executeDebate disc agents moderator pOut mOut).state := by
  have h0 : EngineInv disc ⟨"", [], [], false⟩ := by
    refine ⟨rfl, trivial, ?_⟩
    intro e he
    exact absurd he (List.not_mem_nil e)
  exact optModeratorStep_inv disc moderator _ _ _
    (execRounds_inv disc moderator pOut mOut agents _ _ _
      (optModeratorStep_inv disc moderator _ _ _ h0))

/-- C2 (counterexample): run a debate with one failing participant and a
moderator whose opening succeeds.  The opening log entry has status
`success` and precedes the participant's round-1 turn, yet the prior-context
string passed to that turn is empty and does not contain the moderator entry
— refuting the claim that successful moderator interjections are included. -/
theorem participant_context_excludes_moderator_cex :
    (executeDebate c2Disc [c2Agent] (some c2Mod) c2POut c2MOut).state.logs.head? =
      some ⟨1, 99, "[Moderator - Opening Remarks]\nWelcome", "success", true⟩ ∧
    (executeDebate c2Disc [c2Agent] (some c2Mod) c2POut c2MOut).state.recs =
      [⟨1, 0, c2Agent, "", ⟨1, 10, "Error: down", "error", false⟩⟩] ∧
    containsStr "" "[Moderator - Opening Remarks]\nWelcome" = false := by
  refine ⟨by decide, by decide, by decide⟩

/-- C2 (amended): in every debate run, the prior-context string passed to
each participant turn is exactly the `ctxStep` fold of the successful
participant turns strictly before it: it contains every earlier successful
participant entry, and nothing else — no moderator output and nothing
produced at or after the turn; the final context is the fold of the whole
trace. -/
theorem executeDebate_context_exactly_prior_participant_successes
    (disc : Discussion) (agents : List Agent) (moderator : Option Agent)
    (pOut : Nat → Nat → CallOutcome) (mOut : ModSlot → CallOutcome) :
    RecsTrace "" (executeDebate disc agents moderator pOut mOut).state.recs ∧
    (executeDebate disc agents moderator pOut mOut).state.ctx =
      foldCtx "" (executeDebate disc agents moderator pOut mOut).state.recs := by
  obtain ⟨h1, h2, _⟩ := executeDebate_inv disc agents moderator pOut mOut
  exact ⟨h2, h1⟩

/-- Truncation really bounds the stored length by the limit. -/
theorem enforceCharLimit_le (limit : Nat) (c : String) :
    (enforceCharLimit limit c).length ≤ limit := by
  unfold enforceCharLimit
  by_cases h : c.length > limit
  · rw [if_pos h]
    show (c.data.take limit).length ≤ limit
    rw [List.length_take]
    exact Nat.min_le_left _ _
  · rw [if_neg h]
    omega

/-- C3 (counterexample): with max-char limit 5, a successful moderator
opening of 10 characters is stored as a `success` entry of 40 characters —
moderator entries are not truncated, refuting the claim for moderator
interjections. -/
theorem moderator_entry_exceeds_char_limit_cex :
    (executeDebate c3Disc [] (some c3Mod) c3POut c3MOut).state.logs.head? =
      some ⟨1, 99, "[Moderator - Opening Remarks]\nHelloWorld", "success", true⟩ ∧
    c3Disc.maxCharLimit = 5 ∧
    ("[Moderator - Opening Remarks]\nHelloWorld" : String).length > 5 := by
  refine ⟨by decide, rfl, by decide⟩

/-- C3 (amended): every non-moderator `success` entry saved by the round loop
has content truncated to at most the debate's max-char limit; the on-demand
retry stores a successful response content unchanged (so it is not subject to
the limit). -/
theorem participant_success_entries_respect_char_limit
    (disc : Discussion) (agents : List Agent) (moderator : Option Agent)
    (pOut : Nat → Nat → CallOutcome) (mOut : ModSlot → CallOutcome) :
    (∀ e ∈ (executeDebate disc agents moderator pOut mOut).state.logs,
      e.isModerator = false → e.status = "success" →
        e.content.length ≤ disc.maxCharLimit) ∧
    (∀ did aid c, (retryEntry did aid (CallOutcome.success c)).content = c) := by
  constructor
  · intro e he hmod hsucc
    have hengine := (executeDebate_inv disc agents moderator pOut mOut).2.2 e he
    rcases hengine with ⟨agent, out, rfl⟩ | ⟨m, mt, out, rfl⟩
    · cases out with
      | err msg => simp [participantEntry] at hsucc
      | failure msg => simp [participantEntry] at hsucc
      | success c =>
        show (enforceCharLimit disc.maxCharLimit c).length ≤ disc.maxCharLimit
        exact enforceCharLimit_le disc.maxCharLimit c
    · cases out <;> simp [moderatorEntry] at hmod
  · intro did aid c
    rfl

/-- C3 witness: the concrete one-agent run with limit 3 stores the truncated
`success` entry `hel`, which satisfies the bound. -/
theorem participant_success_entries_respect_char_limit_witness :
    (⟨1, 10, "hel", "success", false⟩ : LogEntry) ∈
      (executeDebate c3wDisc [c3wAgent] none c3wPOut c3wMOut).state.logs ∧
    (⟨1, 10, "hel", "success", false⟩ : LogEntry).content.length ≤ c3wDisc.maxCharLimit :=
  ⟨by decide,
    (participant_success_entries_respect_char_limit c3wDisc [c3wAgent] none c3wPOut
      c3wMOut).1 ⟨1, 10, "hel", "success", false⟩ (by decide) rfl rfl⟩

/-- C10: every log entry saved by a debate run has status `success` or
`error`, and so does every entry created by the on-demand retry; the
`timeout` status value of the data model is never produced (a deadline
exceeded during the call surfaces as a Go error and is recorded as `error`). -/
theorem log_status_success_or_error (disc : Discussion) (agents : List Agent)
    (moderator : Option Agent) (pOut : Nat → Nat → CallOutcome)
    (mOut : ModSlot → CallOutcome) :
    ((executeDebate disc agents moderator pOut mOut).state.logs.all
      (fun e => e.status == "success" || e.status == "error")) = true ∧
    (∀ did aid out, ((retryEntry did aid out).status == "success" ||
      (retryEntry did aid out).status == "error") = true) := by
  constructor
  · rw [List.all_eq_true]
    intro e he
    have hengine := (executeDebate_inv disc agents moderator pOut mOut).2.2 e he
    rcases hengine with ⟨agent, out, rfl⟩ | ⟨m, mt, out, rfl⟩ <;> cases out <;> rfl
  · intro did aid out
    cases out <;> rfl

/-- The interim moderator commentary touches only the logs. -/
theorem interimStep_fields (disc : Discussion) (moderator : Option Agent)
    (mOut : ModSlot → CallOutcome) (nAgents round idx : Nat) (st : EngineState) :
    (interimStep disc moderator mOut nAgents round idx st).ctx = st.ctx ∧
    (interimStep disc moderator mOut nAgents round idx st).recs = st.recs ∧
    (interimStep disc moderator mOut nAgents round idx st).roundActive = st.roundActive := by
  cases moderator with
  | none => exact ⟨rfl, rfl, rfl⟩
  | some m =>
    by_cases hidx : idx < nAgents - 1 <;>
      simp [interimStep, hidx, moderatorStep]

/-- Any optional moderator interaction touches only the logs. -/
theorem optModeratorStep_fields (disc : Discussion) (moderator : Option Agent)
    (mtype : String) (out : CallOutcome) (st : EngineState) :
    (optModeratorStep disc moderator mtype out st).ctx = st.ctx ∧
    (optModeratorStep disc moderator mtype out st).recs = st.recs ∧
    (optModeratorStep disc moderator mtype out st).roundActive = st.roundActive := by
  cases moderator with
  | none => exact ⟨rfl, rfl, rfl⟩
  | some m => exact ⟨rfl, rfl, rfl⟩

/-- When every participant call of a round fails, the participant loop leaves
context and round-activity unchanged and records one turn per participant,
all tagged with this round number. -/
theorem runAgents_fail (disc : Discussion) (moderator : Option Agent)
    (pOut : Nat → Nat → CallOutcome) (mOut : ModSlot → CallOutcome)
    (nAgents round : Nat)
    (hfail : ∀ i, isSuccessOutcome (pOut round i) = false) :
    ∀ (l : List Agent) (idx : Nat) (st : EngineState),
      (runAgents disc moderator pOut mOut nAgents round idx l st).ctx = st.ctx ∧
      (runAgents disc moderator pOut mOut nAgents round idx l st).roundActive =
        st.roundActive ∧
      (runAgents disc moderator pOut mOut nAgents round idx l st).recs.length =
        st.recs.length + l.length ∧
      ∀ t ∈ (runAgents disc moderator pOut mOut nAgents round idx l st).recs,
        t ∈ st.recs ∨ t.round = round := by
  intro l
  induction l with
  | nil =>
    intro idx st
    exact ⟨rfl, rfl, rfl, fun t ht => Or.inl ht⟩
  | cons a rest ih =>
    intro idx st
    simp only [runAgents]
    have hpt := participantTurn_def_fail disc pOut round idx a st (hfail idx)
    obtain ⟨hic, hir, hia⟩ := interimStep_fields disc moderator mOut nAgents round idx
      (participantTurn disc pOut round idx a st)
    obtain ⟨jc, ja, jlen, jmem⟩ := ih (idx + 1)
      (interimStep disc moderator mOut nAgents round idx
        (participantTurn disc pOut round idx a st))
    refine ⟨?_, ?_, ?_, ?_⟩
    · rw [jc, hic, hpt]
    · rw [ja, hia, hpt]
    · rw [jlen, hir, hpt]
      simp only [EngineState.mk.injEq]
      simp [List.length_append]
      omega
    · intro t ht
      rcases jmem t ht with hin | hr
      · rw [hir, hpt] at hin
        simp at hin
        rcases hin with hin | hin
        · exact Or.inl hin
        · subst hin; exact Or.inr rfl
      · exact Or.inr hr

/-- When every participant call of a round fails, the round ends inactive,
with context unchanged and one new turn record per participant. -/
theorem runRound_fail (disc : Discussion) (moderator : Option Agent)
    (pOut : Nat → Nat → CallOutcome) (mOut : ModSlot → CallOutcome)
    (agents : List Agent) (round : Nat) (st : EngineState)
    (hfail : ∀ i, isSuccessOutcome (pOut round i) = false) :
    (runRound disc moderator pOut mOut agents round st).ctx = st.ctx ∧
    (runRound disc moderator pOut mOut agents round st).roundActive = false ∧
    (runRound disc moderator pOut mOut agents round st).recs.length =
      st.recs.length + agents.length ∧
    ∀ t ∈ (runRound disc moderator pOut mOut agents round st).recs,
      t ∈ st.recs ∨ t.round = round := by
  unfold runRound
  obtain ⟨hc, ha, hlen, hmem⟩ := runAgents_fail disc moderator pOut mOut agents.length
    round hfail agents 0 { st with roundActive := false }
  obtain ⟨oc, orcs, oact⟩ := optModeratorStep_fields disc moderator "round_summary"
    (mOut (.roundSummary round))
    (runAgents disc moderator pOut mOut agents.length round 0 agents
      { st with roundActive := false })
  refine ⟨?_, ?_, ?_, ?_⟩
  · rw [oc, hc]
  · rw [oact, ha]
  · rw [orcs, hlen]
  · intro t ht
    rw [orcs] at ht
    exact hmem t ht

/-- The round-loop fallback guarantees at least one round. -/
theorem effMaxRounds_pos (m : Int) : 1 ≤ effMaxRounds m := by
  unfold effMaxRounds
  split <;> omega

/-- If every participant call of round 1 fails, the round loop stops after
round 1: context unchanged, one record per participant, all from round 1. -/
theorem execRounds_round1_fail (disc : Discussion) (moderator : Option Agent)
    (pOut : Nat → Nat → CallOutcome) (mOut : ModSlot → CallOutcome)
    (agents : List Agent)
    (hfail : ∀ i, isSuccessOutcome (pOut 1 i) = false)
    (n : Nat) (hn : 1 ≤ n) (st : EngineState) :
    (execRounds disc moderator pOut mOut agents 1 n st).ctx = st.ctx ∧
    (execRounds disc moderator pOut mOut agents 1 n st).recs.length =
      st.recs.length + agents.length ∧
    ∀ t ∈ (execRounds disc moderator pOut mOut agents 1 n st).recs,
      t ∈ st.recs ∨ t.round = 1 := by
  obtain ⟨m, rfl⟩ : ∃ m, n = m + 1 := ⟨n - 1, by omega⟩
  obtain ⟨hc, ha, hlen, hmem⟩ := runRound_fail disc moderator pOut mOut agents 1 st hfail
  simp only [execRounds]
  rw [ha]
  simp only [Bool.false_eq_true, if_false]
  exact ⟨hc, hlen, hmem⟩

/-- C6: if no participant produces a success in round 1, the engine stops
after round 1 — whatever the configured max-round count — recording exactly
one turn per participant, all in round 1, and the final summary is the fixed
no-responses sentence. -/
theorem failed_first_round_stops_debate (disc : Discussion) (agents : List Agent)
    (moderator : Option Agent) (pOut : Nat → Nat → CallOutcome)
    (mOut : ModSlot → CallOutcome)
    (hfail : ∀ i, isSuccessOutcome (pOut 1 i) = false) :
    (executeDebate disc agents moderator pOut mOut).state.recs.length = agents.length ∧
    (∀ t ∈ (executeDebate disc agents moderator pOut mOut).state.recs, t.round = 1) ∧
    (executeDebate disc agents moderator pOut mOut).finalSummary =
      "No responses were generated during this debate." := by
  obtain ⟨oc, orcs, _⟩ := optModeratorStep_fields disc moderator "opening"
    (mOut .opening) ⟨"", [], [], false⟩
  obtain ⟨ec, elen, emem⟩ := execRounds_round1_fail disc moderator pOut mOut agents hfail
    (effMaxRounds disc.maxRounds) (effMaxRounds_pos disc.maxRounds)
    (optModeratorStep disc moderator "opening" (mOut .opening) ⟨"", [], [], false⟩)
  obtain ⟨cc, crcs, _⟩ := optModeratorStep_fields disc moderator "closing"
    (mOut .closing)
    (execRounds disc moderator pOut mOut agents 1 (effMaxRounds disc.maxRounds)
      (optModeratorStep disc moderator "opening" (mOut .opening) ⟨"", [], [], false⟩))
  have hstate : (executeDebate disc agents moderator pOut mOut).state =
      optModeratorStep disc moderator "closing" (mOut .closing)
        (execRounds disc moderator pOut mOut agents 1 (effMaxRounds disc.maxRounds)
          (optModeratorStep disc moderator "opening" (mOut .opening) ⟨"", [], [], false⟩)) :=
    rfl
  have hctx : (executeDebate disc agents moderator pOut mOut).state.ctx = "" := by
    rw [hstate, cc, ec, oc]
  refine ⟨?_, ?_, ?_⟩
  · rw [hstate, crcs, elen, orcs]
    simp
  · intro t ht
    rw [hstate, crcs] at ht
    rcases emem t ht with hin | hr
    · rw [orcs] at hin
      exact absurd hin (List.not_mem_nil t)
    · exact hr
  · show generateSummary disc.topic
      (executeDebate disc agents moderator pOut mOut).state.ctx =
      "No responses were generated during this debate."
    rw [hctx]
    rfl

/-- C6 witness: one failing participant, five configured rounds — exactly one
recorded turn and the fixed no-responses summary. -/
theorem failed_first_round_stops_debate_witness :
    (∀ i, isSuccessOutcome (c6POut 1 i) = false) ∧
    (executeDebate c6Disc [c6Agent] none c6POut c6MOut).state.recs.length = 1 ∧
    (executeDebate c6Disc [c6Agent] none c6POut c6MOut).finalSummary =
      "No responses were generated during this debate." :=
  ⟨fun _ => rfl,
    (failed_first_round_stops_debate c6Disc [c6Agent] none c6POut c6MOut
      (fun _ => rfl)).1,
    (failed_first_round_stops_debate c6Disc [c6Agent] none c6POut c6MOut
      (fun _ => rfl)).2.2⟩

/-- Every participant turn saves exactly one log entry, whatever its
outcome. -/
theorem participantTurn_logs_len (disc : Discussion) (pOut : Nat → Nat → CallOutcome)
    (round idx : Nat) (agent : Agent) (st : EngineState) :
    (participantTurn disc pOut round idx agent st).logs.length = st.logs.length + 1 := by
  cases hout : pOut round idx <;> simp [participantTurn, hout]

/-- Without a moderator, the participant loop saves exactly one log entry per
participant. -/
theorem runAgents_logs_len_nomod (disc : Discussion) (pOut : Nat → Nat → CallOutcome)
    (mOut : ModSlot → CallOutcome) (nAgents round : Nat) :
    ∀ (l : List Agent) (idx : Nat) (st : EngineState),
      (runAgents disc none pOut mOut nAgents round idx l st).logs.length =
        st.logs.length + l.length := by
  intro l
  induction l with
  | nil => intro idx st; simp [runAgents]
  | cons a rest ih =>
    intro idx st
    simp only [runAgents]
    rw [ih]
    have hi : interimStep disc none mOut nAgents round idx
        (participantTurn disc pOut round idx a st) =
        participantTurn disc pOut round idx a st := rfl
    rw [hi, participantTurn_logs_len]
    simp [List.length_cons]
    omega

/-- Without a moderator, one round saves exactly one log entry per
participant. -/
theorem runRound_logs_len_nomod (disc : Discussion) (pOut : Nat → Nat → CallOutcome)
    (mOut : ModSlot → CallOutcome) (agents : List Agent) (round : Nat)
    (st : EngineState) :
    (runRound disc none pOut mOut agents round st).logs.length =
      st.logs.length + agents.length := by
  show (runAgents disc none pOut mOut agents.length round 0 agents
      { st with roundActive := false }).logs.length = st.logs.length + agents.length
  rw [runAgents_logs_len_nomod]

/-- Without a moderator, the round loop executes between 1 and n rounds,
each contributing one log entry per participant. -/
theorem execRounds_logs_len_nomod (disc : Discussion) (pOut : Nat → Nat → CallOutcome)
    (mOut : ModSlot → CallOutcome) (agents : List Agent) :
    ∀ (n round : Nat) (st : EngineState), 1 ≤ n →
      ∃ k, 1 ≤ k ∧ k ≤ n ∧
        (execRounds disc none pOut mOut agents round n st).logs.length =
          st.logs.length + agents.length * k := by
  intro n
  induction n with
  | zero => intro round st h; exact absurd h (by omega)
  | succ m ih =>
    intro round st _
    simp only [execRounds]
    by_cases hra : (runRound disc none pOut mOut agents round st).roundActive = true
    · rw [if_pos hra]
      cases Nat.eq_zero_or_pos m with
      | inl hm =>
        subst hm
        refine ⟨1, Nat.le_refl 1, by omega, ?_⟩
        show (runRound disc none pOut mOut agents round st).logs.length =
          st.logs.length + agents.length * 1
        rw [runRound_logs_len_nomod, Nat.mul_one]
      | inr hm =>
        obtain ⟨k, hk1, hk2, hlen⟩ := ih (round + 1)
          (runRound disc none pOut mOut agents round st) hm
        refine ⟨k + 1, by omega, by omega, ?_⟩
        rw [hlen, runRound_logs_len_nomod, Nat.mul_succ]
        omega
    · rw [if_neg hra]
      refine ⟨1, Nat.le_refl 1, by omega, ?_⟩
      rw [runRound_logs_len_nomod, Nat.mul_one]

/-- C7: with N participants, no moderator, and any configured max-round
count R (3 substituted when R is unset or non-positive), the number of log
entries produced by the round loop is at least N and at most N times the
effective round count. -/
theorem participant_turn_count_bounds (disc : Discussion) (agents : List Agent)
    (pOut : Nat → Nat → CallOutcome) (mOut : ModSlot → CallOutcome) :
    agents.length ≤ (executeDebate disc agents none pOut mOut).state.logs.length ∧
    (executeDebate disc agents none pOut mOut).state.logs.length ≤
      agents.length * effMaxRounds disc.maxRounds := by
  obtain ⟨k, hk1, hk2, hlen⟩ := execRounds_logs_len_nomod disc pOut mOut agents
    (effMaxRounds disc.maxRounds) 1 ⟨"", [], [], false⟩ (effMaxRounds_pos disc.maxRounds)
  have hstate : (executeDebate disc agents none pOut mOut).state.logs.length =
      (execRounds disc none pOut mOut agents 1 (effMaxRounds disc.maxRounds)
        ⟨"", [], [], false⟩).logs.length := rfl
  have h0 : ((⟨"", [], [], false⟩ : EngineState)).logs.length = 0 := rfl
  rw [hstate, hlen, h0]
  constructor
  · have hm := Nat.mul_le_mul (Nat.le_refl agents.length) hk1
    omega
  · have hm := Nat.mul_le_mul (Nat.le_refl agents.length) hk2
    omega

/-- C8: stopping a `running` discussion updates it to `completed` in the
store and succeeds; a second stop — or stopping any non-running discussion —
is rejected with an error, and in the error case no store update is
produced. -/
theorem stopDiscussion_spec (store : Nat → Option Discussion) (id : Nat)
    (d : Discussion) (h : store id = some d) :
    (d.status = "running" →
      stopDiscussion store id =
        Except.ok (updateStore store id { d with status := "completed" }) ∧
      updateStore store id { d with status := "completed" } id =
        some { d with status := "completed" } ∧
      stopDiscussion (updateStore store id { d with status := "completed" }) id =
        Except.error "discussion is not running") ∧
    (d.status ≠ "running" →
      stopDiscussion store id = Except.error "discussion is not running") := by
  constructor
  · intro hrun
    refine ⟨?_, ?_, ?_⟩
    · simp [stopDiscussion, h, hrun]
    · simp [updateStore]
    · simp [stopDiscussion, updateStore]
  · intro hne
    simp [stopDiscussion, h, hne]

/-- C8 witness: the concrete running discussion id 5 is stopped once
successfully and rejected on the second attempt. -/
theorem stopDiscussion_spec_witness :
    c8Store 5 = some c8Disc ∧ c8Disc.status = "running" ∧
    (stopDiscussion c8Store 5 =
      Except.ok (updateStore c8Store 5 { c8Disc with status := "completed" }) ∧
    updateStore c8Store 5 { c8Disc with status := "completed" } 5 =
      some { c8Disc with status := "completed" } ∧
    stopDiscussion (updateStore c8Store 5 { c8Disc with status := "completed" }) 5 =
      Except.error "discussion is not running") :=
  ⟨rfl, rfl, (stopDiscussion_spec c8Store 5 c8Disc rfl).1 rfl⟩

/-- `getAgents` fails whenever one of the requested ids does not resolve. -/
theorem getAgents_missing (store : Nat → Option Agent) :
    ∀ (ids : List Nat) (id : Nat), id ∈ ids → store id = none →
      ∃ e, getAgents store ids = Except.error e := by
  intro ids
  induction ids with
  | nil => intro id hmem _; exact absurd hmem (List.not_mem_nil id)
  | cons x rest ih =>
    intro id hmem hnone
    cases hx : store x with
    | none => exact ⟨"agent not found", by simp [getAgents, hx]⟩
    | some a =>
      have hmem' : id ∈ rest := by
        rcases List.mem_cons.mp hmem with heq | hr
        · subst heq; rw [hx] at hnone; exact absurd hnone (by simp)
        · exact hr
      obtain ⟨e, he⟩ := ih id hmem' hnone
      exact ⟨e, by simp [getAgents, hx, he]⟩

/-- C9: if some participant id — or the supplied moderator id — does not
resolve to an existing agent, debate creation fails synchronously with an
error and the discussion store is left unchanged, so no record with status
`running` is ever persisted. -/
theorem runDebate_unknown_agent_rejected (agentStore : Nat → Option Agent)
    (topic : String) (agentIDs : List Nat) (moderatorID : Option Nat)
    (maxRounds : Int) (language : String) (maxCharLimit : Nat)
    (discs : List Discussion) (newID : Nat)
    (h : (∃ id, id ∈ agentIDs ∧ agentStore id = none) ∨
      (∃ m, moderatorID = some m ∧ agentStore m = none)) :
    (runDebate agentStore topic agentIDs moderatorID maxRounds language maxCharLimit
      discs newID).1 = discs ∧
    ∃ e, (runDebate agentStore topic agentIDs moderatorID maxRounds language
      maxCharLimit discs newID).2 = Except.error e := by
  rcases h with ⟨id, hmem, hnone⟩ | ⟨m, hmid, hnone⟩
  · obtain ⟨e, he⟩ := getAgents_missing agentStore agentIDs id hmem hnone
    constructor
    · simp [runDebate, he]
    · exact ⟨"failed to verify agents: " ++ e, by simp [runDebate, he]⟩
  · subst hmid
    cases hga : getAgents agentStore agentIDs with
    | error e =>
      constructor
      · simp [runDebate, hga]
      · exact ⟨"failed to verify agents: " ++ e, by simp [runDebate, hga]⟩
    | ok as =>
      constructor
      · simp [runDebate, hga, hnone]
      · exact ⟨"failed to verify moderator", by simp [runDebate, hga, hnone]⟩

/-- C9 witness: requesting agents 1 and 2 against a store that only resolves
id 1 leaves the (empty) discussion store unchanged and yields an error. -/
theorem runDebate_unknown_agent_rejected_witness :
    (2 : Nat) ∈ [1, 2] ∧ c9Store 2 = none ∧
    (runDebate c9Store "T" [1, 2] none 3 "en" 100 [] 7).1 = [] ∧
    ∃ e, (runDebate c9Store "T" [1, 2] none 3 "en" 100 [] 7).2 = Except.error e :=
  ⟨by decide, rfl,
    (runDebate_unknown_agent_rejected c9Store "T" [1, 2] none 3 "en" 100 [] 7
      (Or.inl ⟨2, by decide, rfl⟩)).1,
    (runDebate_unknown_agent_rejected c9Store "T" [1, 2] none 3 "en" 100 [] 7
      (Or.inl ⟨2, by decide, rfl⟩)).2⟩

end CourtTableAI
